import Mathlib

/-!
# Verification of the delivery-drone operation engine

Shallow embedding of the device-side delivery operation engine of
`flyhb/delivery-drone-simulator` (src/device/Device.ts and
src/device/Navigator.ts), together with theorems settling the frozen
claims about its specification.

Conventions of the embedding:
* Coordinates are integers (degrees × 1e7), exactly as the E7 `bigint`
  values of the source.
* JavaScript floating-point arithmetic is modelled by exact rational
  arithmetic (`ℚ`); `Math.round` becomes `jsRound`.
* The haversine great-circle distance (`distanceBetween` in Device.ts)
  uses transcendental functions; it is modelled as an explicit function
  parameter `dist`, and `computeTripDistance` mirrors the source's
  composition of three `distanceBetween` calls.
* Addresses are strings, assumed already lower-cased (the source
  lower-cases both sides before comparing); request identifiers are the
  strings the source produces with `toString`.
* Contract calls that can fail are modelled by explicit result inputs
  (`FetchRes` for `getRequest`, `Except` for the open-request lists, a
  boolean for `proposeDelivery` transaction success).
-/

/-- Request identifier, as the decimal string the source uses as set key. -/
abbrev ReqId : Type := String

/-- An on-chain address, lower-cased. -/
abbrev Addr : Type := String

/-- The zero address used by Device.ts to mean "not targeted". -/
def zeroAddr : Addr := "0x0000000000000000000000000000000000000000"

/-- JavaScript `Math.round`: round half toward positive infinity. -/
def jsRound (q : ℚ) : ℤ := ⌊q + 1 / 2⌋

/-- Type of the great-circle distance function `distanceBetween`
(lat₁, lon₁, lat₂, lon₂ in E7) returning kilometres.  The source
implements it with the haversine formula over floating-point
transcendentals; the embedding keeps it as a parameter. -/
def DistFn : Type := Int → Int → Int → Int → ℚ

/-- `computeTripDistance` from Device.ts: distance from the start to the
pickup, then to the drop-off, then back to the start. -/
def computeTripDistance (dist : DistFn) (startLat startLon pickupLat pickupLon dropLat dropLon : Int) : ℚ :=
  let d1 := dist startLat startLon pickupLat pickupLon
  let d2 := dist pickupLat pickupLon dropLat dropLon
  let d3 := dist dropLat dropLon startLat startLon
  d1 + d2 + d3

/-- Bid price in wei: `BigInt(Math.round(tripDist * 0.1 * 1e18))`. -/
def bidPriceWei (tripDist : ℚ) : ℤ := jsRound (tripDist * (1 / 10) * 10 ^ 18)

/-- A delivery request as the scanner and monitor read it from the
contract, with the source's shape-normalisation already applied:
`targetedDevice` is the zero address when absent (the source's falsy
check leaves `targetAddr` at the zero address), `maxPrice` is `0` when
the `BigInt` conversion fails (the source's `catch` branch), and
`expiresAt` defaults to `0` when undefined. -/
structure DeliveryRequest where
  pickupLatE7 : Int
  pickupLonE7 : Int
  dropLatE7 : Int
  dropLonE7 : Int
  targetedDevice : Addr
  expiresAt : Int
  maxPrice : Int
  status : Nat
  drone : Addr
deriving DecidableEq

/-- Result of a `getRequest` call: the call threw (`fail`, caught and
logged), returned a falsy value or a value with missing coordinate
fields (`missing`, both `continue`), or returned a request. -/
inductive FetchRes where
  | fail
  | missing
  | ok (req : DeliveryRequest)
deriving DecidableEq

/-- Outcome of the scanner's per-request processing: either no
`proposeDelivery` call is made (`skip`) or one is made at a price. -/
inductive ScanAction where
  | skip
  | bid (price : Int)
deriving DecidableEq

/-- Per-identifier body of `pollDeliveryRequests` (Device.ts 631-734):
skip identifiers already proposed on, skip failed or missing fetches;
skip requests targeted at another device whose exclusivity has not
expired; skip trips longer than 6 km; skip bids above a positive
`maxPrice`; otherwise call `proposeDelivery` at the computed price.
Note the fetched `status` field is never consulted. -/
def scannerProcessId (myAddr : Addr) (nowSec : Int) (curLat curLon : Int)
    (dist : DistFn) (proposed : List ReqId) (id : ReqId) (fetch : FetchRes) : ScanAction :=
  if proposed.contains id then .skip
  else
    match fetch with
    | .fail => .skip
    | .missing => .skip
    | .ok req =>
      let targetAddr := req.targetedDevice
      let isTargeted := targetAddr ≠ zeroAddr
      let expiryNum := req.expiresAt
      if isTargeted ∧ expiryNum > nowSec ∧ targetAddr ≠ myAddr then .skip
      else
        let tripDist := computeTripDistance dist curLat curLon
          req.pickupLatE7 req.pickupLonE7 req.dropLatE7 req.dropLonE7
        if tripDist > 6 then .skip
        else
          let priceWei := bidPriceWei tripDist
          if req.maxPrice > 0 ∧ priceWei > req.maxPrice then .skip
          else .bid priceWei

/-- C1: a request whose computed round trip exceeds the maximum trip
distance is never bid on.  The source hardcodes the bound at 6 km
(`if (tripDist > 6) continue`), so in particular any trip longer than
8 km — such as a 9 km trip — is skipped without a `proposeDelivery`
call. -/
theorem scanner_never_bids_beyond_max_trip
    (myAddr : Addr) (nowSec : Int) (curLat curLon : Int) (dist : DistFn)
    (proposed : List ReqId) (id : ReqId) (req : DeliveryRequest)
    (h : 8 < computeTripDistance dist curLat curLon
      req.pickupLatE7 req.pickupLonE7 req.dropLatE7 req.dropLonE7) :
    ∀ p, scannerProcessId myAddr nowSec curLat curLon dist proposed id (.ok req) ≠ .bid p := by
  intro p
  unfold scannerProcessId
  split
  · intro hc; exact ScanAction.noConfusion hc
  · dsimp only
    split
    · intro hc; exact ScanAction.noConfusion hc
    · split
      · intro hc; exact ScanAction.noConfusion hc
      · rename_i hle
        exact absurd (lt_trans (by norm_num) h) hle

/-- Witness for C1: with a constant 3 km distance function the trip
distance is 9 km (> 8) and the scanner's decision is to skip. -/
theorem scanner_never_bids_beyond_max_trip_witness :
    (8 : ℚ) < computeTripDistance (fun _ _ _ _ => 3) 0 0 10 10 20 20 ∧
    ∀ p, scannerProcessId "0xme" 0 0 0 (fun _ _ _ _ => 3) [] "1"
      (.ok ⟨10, 10, 20, 20, zeroAddr, 0, 0, 0, zeroAddr⟩) ≠ .bid p :=
  ⟨by norm_num [computeTripDistance],
   scanner_never_bids_beyond_max_trip "0xme" 0 0 0 (fun _ _ _ _ => 3) [] "1"
     ⟨10, 10, 20, 20, zeroAddr, 0, 0, 0, zeroAddr⟩
     (by norm_num [computeTripDistance])⟩

/-- C9: when a bid is submitted for a request with a positive
`maxPrice`, its price never exceeds `maxPrice`; a request whose
computed price would exceed a positive `maxPrice` is skipped. -/
theorem scanner_bid_respects_max_price
    (myAddr : Addr) (nowSec : Int) (curLat curLon : Int) (dist : DistFn)
    (proposed : List ReqId) (id : ReqId) (req : DeliveryRequest) :
    (∀ p, scannerProcessId myAddr nowSec curLat curLon dist proposed id (.ok req) = .bid p →
      0 < req.maxPrice → p ≤ req.maxPrice)
    ∧ (0 < req.maxPrice →
      req.maxPrice < bidPriceWei (computeTripDistance dist curLat curLon
        req.pickupLatE7 req.pickupLonE7 req.dropLatE7 req.dropLonE7) →
      ∀ p, scannerProcessId myAddr nowSec curLat curLon dist proposed id (.ok req) ≠ .bid p) := by
  constructor
  · intro p hp hmax
    simp only [scannerProcessId] at hp
    split at hp
    · exact absurd hp (by simp)
    · split at hp
      · exact absurd hp (by simp)
      · split at hp
        · exact absurd hp (by simp)
        · split at hp
          · exact absurd hp (by simp)
          · rename_i hguard
            cases hp
            push_neg at hguard
            exact hguard hmax
  · intro hmax hover p
    simp only [scannerProcessId]
    split
    · simp
    · split
      · simp
      · split
        · simp
        · split
          · simp
          · rename_i hguard
            exact absurd ⟨hmax, hover⟩ hguard

/-- Witness for C9: a concrete request with `maxPrice = 10^18` is bid on
at `3 × 10^17 ≤ 10^18`, and the skip branch fires when the price would
exceed the cap. -/
theorem scanner_bid_respects_max_price_witness :
    (∀ p, scannerProcessId "0xme" 0 0 0 (fun _ _ _ _ => 1) [] "1"
        (.ok ⟨0, 0, 0, 0, zeroAddr, 0, 10 ^ 18, 0, zeroAddr⟩) = .bid p →
      0 < (10 : Int) ^ 18 → p ≤ 10 ^ 18) ∧
    ∀ p, scannerProcessId "0xme" 0 0 0 (fun _ _ _ _ => 1) [] "1"
        (.ok ⟨0, 0, 0, 0, zeroAddr, 0, 10 ^ 16, 0, zeroAddr⟩) ≠ .bid p :=
  ⟨fun p hp h0 => (scanner_bid_respects_max_price "0xme" 0 0 0 (fun _ _ _ _ => 1) [] "1"
      ⟨0, 0, 0, 0, zeroAddr, 0, 10 ^ 18, 0, zeroAddr⟩).1 p hp h0,
   (scanner_bid_respects_max_price "0xme" 0 0 0 (fun _ _ _ _ => 1) [] "1"
      ⟨0, 0, 0, 0, zeroAddr, 0, 10 ^ 16, 0, zeroAddr⟩).2 (by norm_num)
      (by norm_num [bidPriceWei, jsRound, computeTripDistance])⟩

/-- Counterexample for C4: the scanner submits a bid for a request whose
fetched status is `Proposed` (1) and whose assigned drone is this agent,
instead of adding it to the pending set without bidding; it likewise
bids on a request with status `Accepted` (2). -/
theorem scanner_bids_regardless_of_status_cex :
    scannerProcessId "0xme" 0 0 0 (fun _ _ _ _ => 1) [] "1"
      (.ok ⟨0, 0, 0, 0, zeroAddr, 0, 0, 1, "0xme"⟩) = .bid 300000000000000000 ∧
    scannerProcessId "0xme" 0 0 0 (fun _ _ _ _ => 1) [] "1"
      (.ok ⟨0, 0, 0, 0, zeroAddr, 0, 0, 2, "0xother"⟩) = .bid 300000000000000000 := by
  constructor <;>
    norm_num [scannerProcessId, computeTripDistance, bidPriceWei, jsRound, zeroAddr]

/-- C4 amended: the scanner never inspects the fetched request's status;
its decision for any request is identical whatever the status field
holds, so non-open requests that pass the targeting, distance, and
price filters are bid on rather than reconciled or skipped. -/
theorem scanner_ignores_status
    (myAddr : Addr) (nowSec : Int) (curLat curLon : Int) (dist : DistFn)
    (proposed : List ReqId) (id : ReqId) (req : DeliveryRequest) (s : Nat) :
    scannerProcessId myAddr nowSec curLat curLon dist proposed id (.ok { req with status := s })
      = scannerProcessId myAddr nowSec curLat curLon dist proposed id (.ok req) := rfl

/-- State of the delivery-request polling loop across cycles: the
`deliveryUnsupported` kill-flag and the `proposedRequests` set. -/
structure ScanState where
  deliveryUnsupported : Bool
  proposed : List ReqId
deriving DecidableEq

/-- Inputs a single `pollDeliveryRequests` cycle consumes from the
environment: results of the two list fetches, the per-identifier
`getRequest` results, per-identifier `proposeDelivery` transaction
success, the current clock, and the drone's current position. -/
structure CycleInput where
  openFetch : Except Unit (List ReqId)
  targetedFetch : Except Unit (List ReqId)
  fetches : ReqId → FetchRes
  txOk : ReqId → Bool
  nowSec : Int
  curLat : Int
  curLon : Int

/-- Insertion-order de-duplication, as the source's `Set<string>`. -/
def jsSetDedup (l : List ReqId) : List ReqId :=
  l.foldl (fun acc x => if acc.contains x then acc else acc ++ [x]) []

/-- One cycle of `pollDeliveryRequests` (Device.ts 544-741): bail out if
`deliveryUnsupported` is set; fetch the open and targeted identifier
lists, setting the flag on either failure; de-duplicate; process each
identifier, appending a `proposeDelivery` call to the output and, on
transaction success, the identifier to `proposedRequests`.  Returns the
new state and the list of bids submitted this cycle. -/
def scannerCycle (myAddr : Addr) (dist : DistFn) (st : ScanState) (inp : CycleInput) :
    ScanState × List (ReqId × Int) :=
  if st.deliveryUnsupported then (st, [])
  else
    let openRes : List ReqId × Bool :=
      match inp.openFetch with
      | .ok l => (l, false)
      | .error _ => ([], true)
    let tgtRes : List ReqId × Bool :=
      match inp.targetedFetch with
      | .ok l => (l, false)
      | .error _ => ([], true)
    let uniqueIds := jsSetDedup (openRes.1 ++ tgtRes.1)
    let result := uniqueIds.foldl
      (fun (acc : List ReqId × List (ReqId × Int)) id =>
        match scannerProcessId myAddr inp.nowSec inp.curLat inp.curLon dist acc.1 id (inp.fetches id) with
        | .skip => acc
        | .bid p =>
          if inp.txOk id then (acc.1 ++ [id], acc.2 ++ [(id, p)])
          else (acc.1, acc.2 ++ [(id, p)]))
      (st.proposed, [])
    (⟨openRes.2 || tgtRes.2, result.1⟩, result.2)

/-- The polling loop over a whole run: the `finally` clause reschedules
unconditionally, so every scheduled cycle executes; `scannerRun` folds
`scannerCycle` over the cycles' inputs, collecting each cycle's bids. -/
def scannerRun (myAddr : Addr) (dist : DistFn) :
    ScanState → List CycleInput → ScanState × List (List (ReqId × Int))
  | st, [] => (st, [])
  | st, inp :: rest =>
    let c := scannerCycle myAddr dist st inp
    let r := scannerRun myAddr dist c.1 rest
    (r.1, c.2 :: r.2)

/-- The number of cycles executed equals the number scheduled: nothing a
cycle does prevents the next cycle from running. -/
theorem scannerRun_length (myAddr : Addr) (dist : DistFn) :
    ∀ (inps : List CycleInput) (st : ScanState),
      (scannerRun myAddr dist st inps).2.length = inps.length
  | [], _ => rfl
  | _ :: rest, st => by
    simp only [scannerRun, List.length_cons]
    rw [scannerRun_length myAddr dist rest]

/-- Counterexample for C3: one failed open-request list fetch sets
`deliveryUnsupported`; a later cycle with a perfectly good biddable
request then fetches and processes nothing, even though the same inputs
from a fresh state produce a bid.  The failure thus affects every
subsequent cycle, not only its own. -/
theorem scanner_list_failure_not_isolated_cex :
    ((scannerCycle "0xme" (fun _ _ _ _ => 1) ⟨false, []⟩
        ⟨.error (), .ok [], fun _ => .fail, fun _ => true, 0, 0, 0⟩).1.deliveryUnsupported = true)
    ∧ ((scannerCycle "0xme" (fun _ _ _ _ => 1)
        (scannerCycle "0xme" (fun _ _ _ _ => 1) ⟨false, []⟩
          ⟨.error (), .ok [], fun _ => .fail, fun _ => true, 0, 0, 0⟩).1
        ⟨.ok ["1"], .ok [], fun _ => .ok ⟨0, 0, 0, 0, zeroAddr, 0, 0, 0, zeroAddr⟩,
          fun _ => true, 0, 0, 0⟩).2 = [])
    ∧ ((scannerCycle "0xme" (fun _ _ _ _ => 1) ⟨false, []⟩
        ⟨.ok ["1"], .ok [], fun _ => .ok ⟨0, 0, 0, 0, zeroAddr, 0, 0, 0, zeroAddr⟩,
          fun _ => true, 0, 0, 0⟩).2 = [("1", 300000000000000000)]) := by
  refine ⟨?_, ?_, ?_⟩ <;>
    norm_num [scannerCycle, jsSetDedup, List.foldl, scannerProcessId,
      computeTripDistance, bidPriceWei, jsRound, zeroAddr]

/-- C3 amended: the polling loop runs every scheduled cycle and a failed
per-identifier fetch merely skips that identifier, but a failed
open-request list fetch sets `deliveryUnsupported`, after which every
cycle returns immediately without fetching or processing anything. -/
theorem scanner_loop_survives_errors
    (myAddr : Addr) (dist : DistFn) (st : ScanState) (inp : CycleInput)
    (inps : List CycleInput) :
    ((scannerRun myAddr dist st inps).2.length = inps.length)
    ∧ (st.deliveryUnsupported = true → scannerCycle myAddr dist st inp = (st, []))
    ∧ (∀ e, inp.openFetch = .error e →
        (scannerCycle myAddr dist st inp).1.deliveryUnsupported = true)
    ∧ (∀ proposed id,
        scannerProcessId myAddr inp.nowSec inp.curLat inp.curLon dist proposed id .fail = .skip) := by
  refine ⟨scannerRun_length myAddr dist inps st, ?_, ?_, ?_⟩
  · intro h
    simp [scannerCycle, h]
  · intro e he
    simp only [scannerCycle]
    split
    · rename_i hflag
      exact hflag
    · simp [he]
  · intro proposed id
    unfold scannerProcessId
    split <;> rfl

/-- Witness for C3's amended theorem at concrete inputs. -/
theorem scanner_loop_survives_errors_witness :
    ((scannerRun "0xme" (fun _ _ _ _ => 1) ⟨true, []⟩ []).2.length = 0)
    ∧ (scannerCycle "0xme" (fun _ _ _ _ => 1) ⟨true, []⟩
        ⟨.error (), .ok [], fun _ => .fail, fun _ => true, 0, 0, 0⟩ = (⟨true, []⟩, []))
    ∧ ((scannerCycle "0xme" (fun _ _ _ _ => 1) ⟨true, []⟩
        ⟨.error (), .ok [], fun _ => .fail, fun _ => true, 0, 0, 0⟩).1.deliveryUnsupported = true)
    ∧ (scannerProcessId "0xme" 0 0 0 (fun _ _ _ _ => 1) [] "1" .fail = .skip) := by
  obtain ⟨h1, h2, h3, h4⟩ := scanner_loop_survives_errors "0xme" (fun _ _ _ _ => 1) ⟨true, []⟩
    ⟨.error (), .ok [], fun _ => .fail, fun _ => true, 0, 0, 0⟩ []
  exact ⟨h1, h2 rfl, h3 () rfl, h4 [] "1"⟩

/-- Observable events of `pollProposalStatus`: removing an identifier
from `proposedRequests` and invoking `handleAcceptedDelivery`. -/
inductive MonitorEvent where
  | remove (id : ReqId)
  | invoke (id : ReqId)
deriving DecidableEq

/-- Per-identifier body of `pollProposalStatus` (Device.ts 336-371).
Returns whether the identifier stays tracked and the ordered events
emitted: a failed or falsy fetch keeps the identifier (retry next
cycle); status `Accepted` (2) with this drone assigned deletes the
identifier and then invokes the delivery handler; status `Accepted`
with another drone assigned keeps the identifier (only the
`status !== 1` arm of the `else if` removes); any status other than
`Proposed` (1) and `Accepted` (2) deletes the identifier. -/
def monitorProcessId (myAddr : Addr) (id : ReqId) (fetch : FetchRes) :
    Bool × List MonitorEvent :=
  match fetch with
  | .fail => (true, [])
  | .missing => (true, [])
  | .ok req =>
    if req.status = 2 then
      if req.drone = myAddr then (false, [.remove id, .invoke id])
      else (true, [])
    else if req.status ≠ 1 then (false, [.remove id])
    else (true, [])

/-- One cycle of `pollProposalStatus`: iterate over a snapshot of the
tracked identifiers, keep those `monitorProcessId` keeps, and emit the
events in iteration order. -/
def monitorCycle (myAddr : Addr) (f : ReqId → FetchRes) (s : List ReqId) :
    List ReqId × List MonitorEvent :=
  (s.filter (fun id => (monitorProcessId myAddr id (f id)).1),
   s.flatMap (fun id => (monitorProcessId myAddr id (f id)).2))

/-- The proposal-status polling loop over a whole run: each cycle
consumes one fetch oracle and the loop reschedules unconditionally. -/
def monitorRun (myAddr : Addr) :
    List (ReqId → FetchRes) → List ReqId → List ReqId × List MonitorEvent
  | [], s => (s, [])
  | f :: fs, s =>
    let c := monitorCycle myAddr f s
    let r := monitorRun myAddr fs c.1
    (r.1, c.2 ++ r.2)

/-- Counterexample for C2: an identifier whose fetched status is
`Accepted` (2) with a different drone assigned is NOT removed from
`proposedRequests` — the removal arm only runs when the status is not
`Accepted` — so the monitor cycle returns the set unchanged. -/
theorem monitor_keeps_accepted_by_other_cex :
    (monitorProcessId "0xme" "7" (.ok ⟨0, 0, 0, 0, zeroAddr, 0, 0, 2, "0xother"⟩)).1 = true ∧
    monitorCycle "0xme" (fun _ => .ok ⟨0, 0, 0, 0, zeroAddr, 0, 0, 2, "0xother"⟩) ["7"]
      = (["7"], []) := by
  constructor <;> simp [monitorCycle, monitorProcessId]

/-- C2 amended: in every monitor cycle an identifier whose fetched
status is neither `Proposed` (1) nor `Accepted` (2) — cancelled,
expired, and so on — is removed from `proposedRequests` (in particular
a `Cancelled` (7) identifier that was never accepted), while an
identifier whose status is `Accepted` (2) with a different assigned
drone stays tracked. -/
theorem monitor_removes_terminal_status
    (myAddr : Addr) (f : ReqId → FetchRes) (s : List ReqId) (id : ReqId)
    (req : DeliveryRequest) (hf : f id = .ok req) :
    (req.status ≠ 1 → req.status ≠ 2 → id ∉ (monitorCycle myAddr f s).1)
    ∧ (req.status = 2 → req.drone ≠ myAddr → id ∈ s → id ∈ (monitorCycle myAddr f s).1) := by
  constructor
  · intro h1 h2 hmem
    rw [monitorCycle, List.mem_filter] at hmem
    rw [hf] at hmem
    simp [monitorProcessId, h1, h2] at hmem
  · intro h2 hd hmem
    rw [monitorCycle, List.mem_filter, hf]
    simp [monitorProcessId, h2, hd, hmem]

/-- Witness for C2's amended theorem: a `Cancelled` (7) identifier is
removed; an `Accepted` (2) identifier assigned to another drone stays. -/
theorem monitor_removes_terminal_status_witness :
    ("7" : ReqId) ∉ (monitorCycle "0xme"
      (fun _ => .ok ⟨0, 0, 0, 0, zeroAddr, 0, 0, 7, zeroAddr⟩) ["7"]).1 ∧
    ("8" : ReqId) ∈ (monitorCycle "0xme"
      (fun _ => .ok ⟨0, 0, 0, 0, zeroAddr, 0, 0, 2, "0xother"⟩) ["8"]).1 :=
  ⟨(monitor_removes_terminal_status "0xme" _ ["7"] "7"
      ⟨0, 0, 0, 0, zeroAddr, 0, 0, 7, zeroAddr⟩ rfl).1 (by decide) (by decide),
   (monitor_removes_terminal_status "0xme" _ ["8"] "8"
      ⟨0, 0, 0, 0, zeroAddr, 0, 0, 2, "0xother"⟩ rfl).2 rfl (by decide) (by decide)⟩

/-- An `invoke` event in a per-identifier block names that identifier,
and the identifier is simultaneously dropped from the tracked set. -/
theorem monitorProcessId_invoke (myAddr : Addr) (id j : ReqId) (fr : FetchRes)
    (h : MonitorEvent.invoke j ∈ (monitorProcessId myAddr id fr).2) :
    j = id ∧ (monitorProcessId myAddr id fr).1 = false := by
  cases fr with
  | fail => simp [monitorProcessId] at h
  | missing => simp [monitorProcessId] at h
  | ok req =>
    by_cases h2 : req.status = 2 <;> by_cases hd : req.drone = myAddr <;>
      by_cases h1 : req.status = 1 <;>
      simp_all [monitorProcessId]

/-- A cycle only invokes identifiers it was tracking, and it stops
tracking each identifier it invokes. -/
theorem monitorCycle_invoke_mem (myAddr : Addr) (f : ReqId → FetchRes)
    (s : List ReqId) (j : ReqId)
    (h : MonitorEvent.invoke j ∈ (monitorCycle myAddr f s).2) :
    j ∈ s ∧ (monitorProcessId myAddr j (f j)).1 = false := by
  simp only [monitorCycle, List.mem_flatMap] at h
  obtain ⟨id, hmem, hblk⟩ := h
  obtain ⟨rfl, hkeep⟩ := monitorProcessId_invoke myAddr id j (f id) hblk
  exact ⟨hmem, hkeep⟩

/-- A per-identifier block contains at most one `invoke`, and only for
its own identifier. -/
theorem monitorProcessId_count (myAddr : Addr) (id j : ReqId) (fr : FetchRes) :
    ((monitorProcessId myAddr id fr).2).count (MonitorEvent.invoke j)
      ≤ if id = j then 1 else 0 := by
  cases fr with
  | fail => simp [monitorProcessId]
  | missing => simp [monitorProcessId]
  | ok req =>
    by_cases h2 : req.status = 2 <;> by_cases hd : req.drone = myAddr <;>
      by_cases h1 : req.status = 1 <;> by_cases hij : id = j <;>
      simp_all [monitorProcessId, List.count_cons]

/-- Identifiers outside the tracked set are never invoked in a cycle. -/
theorem monitorCycle_invoke_count_zero (myAddr : Addr) (f : ReqId → FetchRes)
    (s : List ReqId) (j : ReqId) (h : j ∉ s) :
    (monitorCycle myAddr f s).2.count (MonitorEvent.invoke j) = 0 :=
  List.count_eq_zero.mpr fun hmem => h (monitorCycle_invoke_mem myAddr f s j hmem).1

/-- Within one cycle over a duplicate-free tracked set, each identifier
is invoked at most once. -/
theorem monitorCycle_invoke_count (myAddr : Addr) (f : ReqId → FetchRes) :
    ∀ (s : List ReqId), s.Nodup →
      ∀ j, (monitorCycle myAddr f s).2.count (MonitorEvent.invoke j) ≤ 1
  | [], _, _ => by simp [monitorCycle]
  | a :: as, hnd, j => by
    have hnd' : as.Nodup := hnd.of_cons
    have hna : a ∉ as := (List.nodup_cons.mp hnd).1
    have hrest := monitorCycle_invoke_count myAddr f as hnd' j
    have hblk := monitorProcessId_count myAddr a j (f a)
    simp only [monitorCycle, List.flatMap_cons, List.count_append] at *
    by_cases haj : a = j
    · subst haj
      have : (monitorCycle myAddr f as).2.count (MonitorEvent.invoke a) = 0 :=
        monitorCycle_invoke_count_zero myAddr f as a hna
      simp only [monitorCycle] at this
      simp only [if_pos rfl] at hblk
      simp only [eq_self_iff_true, if_true] at hblk
      omega
    · simp only [if_neg haj] at hblk
      omega

/-- The set a cycle returns is a subset of the set it started from. -/
theorem monitorCycle_subset (myAddr : Addr) (f : ReqId → FetchRes)
    (s : List ReqId) (j : ReqId) (h : j ∈ (monitorCycle myAddr f s).1) : j ∈ s :=
  (List.mem_filter.mp h).1

/-- Identifiers outside the tracked set are never invoked in any later
cycle either. -/
theorem monitorRun_invoke_count_zero (myAddr : Addr) :
    ∀ (fetches : List (ReqId → FetchRes)) (s : List ReqId) (j : ReqId), j ∉ s →
      (monitorRun myAddr fetches s).2.count (MonitorEvent.invoke j) = 0
  | [], _, _, _ => by simp [monitorRun]
  | f :: fs, s, j, h => by
    simp only [monitorRun, List.count_append]
    rw [monitorCycle_invoke_count_zero myAddr f s j h,
      monitorRun_invoke_count_zero myAddr fs (monitorCycle myAddr f s).1 j
        (fun hm => h (monitorCycle_subset myAddr f s j hm))]

/-- Across a whole run from a duplicate-free set, each identifier is
invoked at most once: an invoked identifier has been removed, removal
is permanent within the monitor, and invocation requires tracking. -/
theorem monitorRun_invoke_count (myAddr : Addr) :
    ∀ (fetches : List (ReqId → FetchRes)) (s : List ReqId), s.Nodup →
      ∀ j, (monitorRun myAddr fetches s).2.count (MonitorEvent.invoke j) ≤ 1
  | [], _, _, _ => by simp [monitorRun]
  | f :: fs, s, hnd, j => by
    simp only [monitorRun, List.count_append]
    by_cases hmem : MonitorEvent.invoke j ∈ (monitorCycle myAddr f s).2
    · have hkeep := (monitorCycle_invoke_mem myAddr f s j hmem).2
      have hnot : j ∉ (monitorCycle myAddr f s).1 := by
        intro hm
        simp only [monitorCycle, List.mem_filter] at hm
        rw [hkeep] at hm
        exact absurd hm.2 (by simp)
      rw [monitorRun_invoke_count_zero myAddr fs _ j hnot]
      have := monitorCycle_invoke_count myAddr f s hnd j
      omega
    · rw [List.count_eq_zero.mpr hmem]
      have := monitorRun_invoke_count myAddr fs (monitorCycle myAddr f s).1
        (hnd.filter _) j
      omega

/-- `removeBeforeInvoke id seen evs` checks that every `invoke id` in
`evs` is strictly preceded by a `remove id` (either earlier in `evs` or
already `seen` before `evs` starts). -/
def removeBeforeInvoke (id : ReqId) : Bool → List MonitorEvent → Bool
  | _, [] => true
  | seen, .remove j :: rest => removeBeforeInvoke id (seen || (j == id)) rest
  | seen, .invoke j :: rest =>
    if j == id then seen && removeBeforeInvoke id seen rest
    else removeBeforeInvoke id seen rest

/-- A removal already seen can only make the check easier. -/
theorem removeBeforeInvoke_mono (id : ReqId) :
    ∀ (l : List MonitorEvent) (b : Bool), removeBeforeInvoke id b l = true →
      removeBeforeInvoke id true l = true
  | [], _, _ => rfl
  | .remove j :: rest, b, h => by
    simp only [removeBeforeInvoke, Bool.true_or] at *
    exact removeBeforeInvoke_mono id rest (b || (j == id)) h
  | .invoke j :: rest, b, h => by
    simp only [removeBeforeInvoke] at *
    split at h
    · rename_i hj
      rw [if_pos hj]
      obtain ⟨hb, hr⟩ := Bool.and_eq_true_iff.mp h
      subst hb
      simp [hr]
    · rename_i hj
      rw [if_neg hj]
      exact removeBeforeInvoke_mono id rest b h

/-- The check distributes over concatenation when the second part
passes with no removal seen. -/
theorem removeBeforeInvoke_append (id : ReqId) :
    ∀ (l₁ l₂ : List MonitorEvent) (b : Bool),
      removeBeforeInvoke id b l₁ = true → removeBeforeInvoke id false l₂ = true →
      removeBeforeInvoke id b (l₁ ++ l₂) = true
  | [], l₂, b, _, h₂ => by
    cases b
    · exact h₂
    · exact removeBeforeInvoke_mono id l₂ false h₂
  | .remove j :: rest, l₂, b, h₁, h₂ => by
    simp only [List.cons_append, removeBeforeInvoke] at *
    exact removeBeforeInvoke_append id rest l₂ _ h₁ h₂
  | .invoke j :: rest, l₂, b, h₁, h₂ => by
    simp only [List.cons_append, removeBeforeInvoke] at *
    split at h₁ <;> rename_i hj
    · rw [if_pos hj]
      obtain ⟨hb, hr⟩ := Bool.and_eq_true_iff.mp h₁
      subst hb
      simpa using removeBeforeInvoke_append id rest l₂ true hr h₂
    · rw [if_neg hj]
      exact removeBeforeInvoke_append id rest l₂ b h₁ h₂

/-- Each per-identifier block removes before it invokes: the source
deletes from `proposedRequests` and only then calls
`handleAcceptedDelivery`. -/
theorem removeBeforeInvoke_block (myAddr : Addr) (id id' : ReqId) (fr : FetchRes) :
    removeBeforeInvoke id false (monitorProcessId myAddr id' fr).2 = true := by
  cases fr with
  | fail => rfl
  | missing => rfl
  | ok req =>
    simp only [monitorProcessId]
    split
    · split
      · simp only [removeBeforeInvoke, Bool.false_or]
        by_cases hj : id' == id
        · simp [hj, removeBeforeInvoke]
        · simp [removeBeforeInvoke, hj]
      · rfl
    · split
      · rfl
      · rfl

/-- Every cycle's event stream removes an identifier before invoking it. -/
theorem removeBeforeInvoke_cycle (myAddr : Addr) (f : ReqId → FetchRes) (id : ReqId) :
    ∀ s : List ReqId, removeBeforeInvoke id false (monitorCycle myAddr f s).2 = true
  | [] => rfl
  | a :: as => by
    simp only [monitorCycle, List.flatMap_cons]
    exact removeBeforeInvoke_append id _ _ false
      (removeBeforeInvoke_block myAddr id a (f a))
      (removeBeforeInvoke_cycle myAddr f id as)

/-- Over a whole run, removal always precedes invocation. -/
theorem removeBeforeInvoke_run (myAddr : Addr) (id : ReqId) :
    ∀ (fetches : List (ReqId → FetchRes)) (s : List ReqId),
      removeBeforeInvoke id false (monitorRun myAddr fetches s).2 = true
  | [], _ => rfl
  | f :: fs, s => by
    simp only [monitorRun]
    exact removeBeforeInvoke_append id _ _ false
      (removeBeforeInvoke_cycle myAddr f id s)
      (removeBeforeInvoke_run myAddr id fs (monitorCycle myAddr f s).1)

/-- C5: over any sequence of monitor cycles starting from a
duplicate-free `PendingBid` set, every `invoke` of an identifier is
strictly preceded by its `remove`, and no identifier is invoked more
than once in the whole run. -/
theorem monitor_removes_before_single_invocation
    (myAddr : Addr) (fetches : List (ReqId → FetchRes)) (s : List ReqId)
    (hnd : s.Nodup) (id : ReqId) :
    (monitorRun myAddr fetches s).2.count (MonitorEvent.invoke id) ≤ 1
    ∧ removeBeforeInvoke id false (monitorRun myAddr fetches s).2 = true :=
  ⟨monitorRun_invoke_count myAddr fetches s hnd id,
   removeBeforeInvoke_run myAddr id fetches s⟩

/-- Witness for C5: two cycles over one tracked identifier whose status
is `Accepted` for this agent; the identifier is removed, invoked once,
and never invoked again. -/
theorem monitor_removes_before_single_invocation_witness :
    (monitorRun "0xme" [fun _ => .ok ⟨0, 0, 0, 0, zeroAddr, 0, 0, 2, "0xme"⟩,
        fun _ => .ok ⟨0, 0, 0, 0, zeroAddr, 0, 0, 2, "0xme"⟩] ["1"]).2.count
      (MonitorEvent.invoke "1") ≤ 1
    ∧ removeBeforeInvoke "1" false
      (monitorRun "0xme" [fun _ => .ok ⟨0, 0, 0, 0, zeroAddr, 0, 0, 2, "0xme"⟩,
        fun _ => .ok ⟨0, 0, 0, 0, zeroAddr, 0, 0, 2, "0xme"⟩] ["1"]).2 = true :=
  monitor_removes_before_single_invocation "0xme"
    [fun _ => .ok ⟨0, 0, 0, 0, zeroAddr, 0, 0, 2, "0xme"⟩,
     fun _ => .ok ⟨0, 0, 0, 0, zeroAddr, 0, 0, 2, "0xme"⟩] ["1"] (by decide) "1"

/-- The heartbeat cache of last successfully reported values
(`lastLat`, `lastLon`, `lastReady` in `startOperationFlow`), each
`undefined` before the first successful report. -/
structure HbCache where
  lastLat : Option Int
  lastLon : Option Int
  lastReady : Option Bool
deriving DecidableEq

/-- The three arguments passed to `reportLiveness` (besides the
timestamp): latitude, longitude, and readiness encoded as an integer. -/
structure HbArgs where
  latArg : Int
  lonArg : Int
  readyArg : Int
deriving DecidableEq

/-- `INT256_MIN = -(1n << 255n)`: the position "no update" sentinel. -/
def INT256_MIN : Int := -(2 ^ 255)

/-- `READY_UNCHANGED = -1n`: the readiness "no update" sentinel. -/
def READY_UNCHANGED : Int := -1

/-- One heartbeat `tick` (Device.ts 770-807): on the first tick ever
(any cache field undefined) send the real latitude, longitude, and
readiness as 1/0; afterwards substitute `INT256_MIN` for an unchanged
coordinate and `READY_UNCHANGED` for unchanged readiness.  The cache is
updated only when the send succeeds (`reportLiveness`/`wait` did not
throw); on failure the `catch` skips the cache assignment. -/
def hbTick (c : HbCache) (lat lon : Int) (ready : Bool) (sendOk : Bool) :
    HbArgs × HbCache :=
  let first := c.lastLat.isNone || c.lastLon.isNone || c.lastReady.isNone
  let latArg := if first then lat else if some lat = c.lastLat then INT256_MIN else lat
  let lonArg := if first then lon else if some lon = c.lastLon then INT256_MIN else lon
  let readyArg :=
    if first then (if ready then 1 else 0)
    else if some ready = c.lastReady then READY_UNCHANGED
    else (if ready then 1 else 0)
  if sendOk then (⟨latArg, lonArg, readyArg⟩, ⟨some lat, some lon, some ready⟩)
  else (⟨latArg, lonArg, readyArg⟩, c)

/-- C6: the first tick ever reports the real position and readiness
(1/0); a later tick with nothing changed since the last successful
report sends `INT256_MIN` for both coordinates and `-1` for readiness;
a tick where only readiness changed sends the position sentinels and
the real readiness.  A successful send caches the reported values, a
failed send leaves the cache untouched. -/
theorem heartbeat_diff_encoding (lat lon : Int) (ready r' : Bool) (ok : Bool) :
    ((hbTick ⟨none, none, none⟩ lat lon ready ok).1 = ⟨lat, lon, if ready then 1 else 0⟩)
    ∧ ((hbTick ⟨some lat, some lon, some ready⟩ lat lon ready ok).1
        = ⟨INT256_MIN, INT256_MIN, READY_UNCHANGED⟩)
    ∧ (r' ≠ ready →
        (hbTick ⟨some lat, some lon, some ready⟩ lat lon r' ok).1
          = ⟨INT256_MIN, INT256_MIN, if r' then 1 else 0⟩)
    ∧ ((hbTick ⟨some lat, some lon, some ready⟩ lat lon r' true).2
        = ⟨some lat, some lon, some r'⟩)
    ∧ (∀ c : HbCache, (hbTick c lat lon r' false).2 = c) := by
  refine ⟨?_, ?_, ?_, ?_, ?_⟩
  · cases ok <;> simp [hbTick]
  · cases ok <;> simp [hbTick]
  · intro hne
    have : some r' ≠ some ready := fun h => hne (Option.some_injective _ h)
    cases ok <;> simp [hbTick, this]
  · simp [hbTick]
  · intro c
    simp [hbTick]

/-- Witness for C6 at concrete values: readiness flips from `true` to
`false` with the position unchanged. -/
theorem heartbeat_diff_encoding_witness :
    ((hbTick ⟨none, none, none⟩ 42 (-71) true true).1 = ⟨42, -71, 1⟩)
    ∧ ((hbTick ⟨some 42, some (-71), some true⟩ 42 (-71) true true).1
        = ⟨INT256_MIN, INT256_MIN, READY_UNCHANGED⟩)
    ∧ ((hbTick ⟨some 42, some (-71), some true⟩ 42 (-71) false true).1
        = ⟨INT256_MIN, INT256_MIN, 0⟩) := by
  obtain ⟨h1, h2, h3, _, _⟩ := heartbeat_diff_encoding 42 (-71) true false true
  exact ⟨h1, h2, h3 (by decide)⟩

/-- The drone phase status tracked in `droneStatus` (the spec's `ready`
state is the source's `idle`). -/
inductive DroneStatus where
  | idle
  | toPickup
  | toDropoff
  | returning
deriving DecidableEq

/-- The shared agent state the delivery handler mutates. -/
structure AgentState where
  status : DroneStatus
  ready : Bool
  lat : Int
  lon : Int
deriving DecidableEq

/-- Pickup/drop coordinates stored in `requestInfo` for a request. -/
structure TripInfo where
  pickupLat : Int
  pickupLon : Int
  dropLat : Int
  dropLon : Int
deriving DecidableEq

/-- Step 1 of `handleAcceptedDelivery` (Device.ts 418-445): clear
readiness, set status `toPickup`, and move to the pickup point when the
request's coordinates are known.  The `startDelivery` ledger call
happens after these mutations and its failure is only logged. -/
def execStep1 (info : Option TripInfo) (st : AgentState) : AgentState :=
  let st' : AgentState := { st with ready := false, status := .toPickup }
  match info with
  | some i => { st' with lat := i.pickupLat, lon := i.pickupLon }
  | none => st'

/-- Step 2 (Device.ts 447-467): set status `toDropoff`; the
`packagePicked` call follows and its failure is only logged. -/
def execStep2 (st : AgentState) : AgentState :=
  { st with status := .toDropoff }

/-- Step 3 (Device.ts 469-495): move to the drop-off point when known
and set status `returning`; the `packageDropped` call follows. -/
def execStep3 (info : Option TripInfo) (st : AgentState) : AgentState :=
  let st' : AgentState :=
    match info with
    | some i => { st with lat := i.dropLat, lon := i.dropLon }
    | none => st
  { st' with status := .returning }

/-- Step 4 (Device.ts 497-524): return to the home coordinates, restore
readiness, and set status `idle`; the `completeDelivery` call follows. -/
def execStep4 (homeLat homeLon : Int) (st : AgentState) : AgentState :=
  { st with lat := homeLat, lon := homeLon, ready := true, status := .idle }

/-- The sequence of agent states an accepted delivery drives through:
the state before the handler runs followed by the state after each of
the four steps. -/
def executorTrace (homeLat homeLon : Int) (info : Option TripInfo)
    (st0 : AgentState) : List AgentState :=
  let s1 := execStep1 info st0
  let s2 := execStep2 s1
  let s3 := execStep3 info s2
  let s4 := execStep4 homeLat homeLon s3
  [st0, s1, s2, s3, s4]

/-- C7: from a ready/idle state, an accepted delivery drives the phase
status through exactly idle → toPickup → toDropoff → returning → idle
(the spec's `ready` state is the source's `idle`), and readiness is
false throughout except at the initial and final states. -/
theorem executor_phase_sequence (homeLat homeLon : Int) (info : Option TripInfo)
    (st0 : AgentState) (hs : st0.status = .idle) (hr : st0.ready = true) :
    (executorTrace homeLat homeLon info st0).map AgentState.status
      = [.idle, .toPickup, .toDropoff, .returning, .idle]
    ∧ (executorTrace homeLat homeLon info st0).map AgentState.ready
      = [true, false, false, false, true] := by
  cases info <;>
    simp [executorTrace, execStep1, execStep2, execStep3, execStep4, hs, hr]

/-- Witness for C7 at a concrete start state and trip. -/
theorem executor_phase_sequence_witness :
    (executorTrace 1 2 (some ⟨3, 4, 5, 6⟩) ⟨.idle, true, 1, 2⟩).map AgentState.status
      = [.idle, .toPickup, .toDropoff, .returning, .idle]
    ∧ (executorTrace 1 2 (some ⟨3, 4, 5, 6⟩) ⟨.idle, true, 1, 2⟩).map AgentState.ready
      = [true, false, false, false, true] :=
  executor_phase_sequence 1 2 (some ⟨3, 4, 5, 6⟩) ⟨.idle, true, 1, 2⟩ rfl rfl

/-- The stepping loop of `Navigator.moveTo` (Navigator.ts 94-105): at
each of the `steps` iterations advance the internal floating-point
position by one even share of the displacement, round to integer E7,
and invoke the update callback; the list collects the coordinates
passed to the callback, in order. -/
def moveLoop (stepLat stepLon : ℚ) : ℕ → ℚ → ℚ → List (ℤ × ℤ)
  | 0, _, _ => []
  | n + 1, curLat, curLon =>
    let newLat := curLat + stepLat
    let newLon := curLon + stepLon
    (jsRound newLat, jsRound newLon) :: moveLoop stepLat stepLon n newLat newLon

/-- `Navigator.moveTo` (Navigator.ts 70-106), modelled on the callback
coordinates it emits.  `totalMiles` stands for
`distanceKm(current, target) * 0.621371`, which the source computes
with the transcendental haversine formula; the target is the integer E7
pair obtained from the `bigint` arguments.  Zero distance emits one
update at the target; otherwise `steps = max(1, ceil(total/step))`
iterations each advance by `delta/steps`. -/
def moveTo (curLat curLon : ℚ) (targetLat targetLon : ℤ)
    (totalMiles stepMiles : ℚ) : List (ℤ × ℤ) :=
  if totalMiles = 0 then [(jsRound targetLat, jsRound targetLon)]
  else
    let steps : ℕ := max 1 ⌈totalMiles / stepMiles⌉.toNat
    let deltaLat := (targetLat : ℚ) - curLat
    let deltaLon := (targetLon : ℚ) - curLon
    let stepLat := deltaLat / steps
    let stepLon := deltaLon / steps
    moveLoop stepLat stepLon steps curLat curLon

/-- `Math.round` of an integer is that integer. -/
theorem jsRound_intCast (t : ℤ) : jsRound (t : ℚ) = t := by
  rw [jsRound, Int.floor_int_add]
  norm_num

/-- The loop emits one callback per step. -/
theorem moveLoop_length (stepLat stepLon : ℚ) :
    ∀ (n : ℕ) (a b : ℚ), (moveLoop stepLat stepLon n a b).length = n
  | 0, _, _ => rfl
  | n + 1, a, b => by
    simp only [moveLoop, List.length_cons]
    rw [moveLoop_length stepLat stepLon n]

/-- The final callback of a non-empty loop carries the accumulated
position after all steps. -/
theorem moveLoop_last (stepLat stepLon : ℚ) :
    ∀ (n : ℕ) (a b : ℚ),
      (moveLoop stepLat stepLon (n + 1) a b).getLast?
        = some (jsRound (a + (n + 1) * stepLat), jsRound (b + (n + 1) * stepLon))
  | 0, a, b => by
    simp [moveLoop]
  | n + 1, a, b => by
    rw [moveLoop]
    have htail := moveLoop_last stepLat stepLon n (a + stepLat) (b + stepLon)
    rw [List.getLast?_cons, htail]
    have e1 : a + stepLat + (n + 1 : ℚ) * stepLat = a + (n + 1 + 1 : ℚ) * stepLat := by ring
    have e2 : b + stepLon + (n + 1 : ℚ) * stepLon = b + (n + 1 + 1 : ℚ) * stepLon := by ring
    push_cast
    rw [e1, e2]
    simp

/-- C8: over a non-zero distance with a positive step size, `moveTo`
invokes the callback exactly `ceil(totalMiles/stepMiles)` times, at
least once, and the final invocation's coordinate is exactly the
target. -/
theorem moveTo_count_and_final (curLat curLon : ℚ) (targetLat targetLon : ℤ)
    (totalMiles stepMiles : ℚ) (h0 : 0 < totalMiles) (hs : 0 < stepMiles) :
    (moveTo curLat curLon targetLat targetLon totalMiles stepMiles).length
      = ⌈totalMiles / stepMiles⌉.toNat
    ∧ 1 ≤ (moveTo curLat curLon targetLat targetLon totalMiles stepMiles).length
    ∧ (moveTo curLat curLon targetLat targetLon totalMiles stepMiles).getLast?
      = some (targetLat, targetLon) := by
  have hne : totalMiles ≠ 0 := ne_of_gt h0
  have hceil : (1 : ℤ) ≤ ⌈totalMiles / stepMiles⌉ :=
    Int.ceil_pos.mpr (div_pos h0 hs)
  have hto : 1 ≤ ⌈totalMiles / stepMiles⌉.toNat := by omega
  have hmax : max 1 ⌈totalMiles / stepMiles⌉.toNat = ⌈totalMiles / stepMiles⌉.toNat :=
    max_eq_right hto
  obtain ⟨n, hn⟩ : ∃ n, ⌈totalMiles / stepMiles⌉.toNat = n + 1 :=
    ⟨⌈totalMiles / stepMiles⌉.toNat - 1, by omega⟩
  have hQ : ((n : ℚ) + 1) ≠ 0 := by positivity
  constructor
  · rw [moveTo, if_neg hne]
    simp only [hmax]
    exact moveLoop_length _ _ _ curLat curLon
  constructor
  · rw [moveTo, if_neg hne]
    simp only [hmax, moveLoop_length]
    omega
  · rw [moveTo, if_neg hne]
    simp only [hmax]
    rw [hn, moveLoop_last]
    push_cast
    have key : ∀ t c : ℚ, c + ((n : ℚ) + 1) * ((t - c) / ((n : ℚ) + 1)) = t := by
      intro t c
      field_simp
    rw [key, key, jsRound_intCast, jsRound_intCast]

/-- Witness for C8: half a mile at 0.01-mile steps emits 50 updates and
ends exactly at the target. -/
theorem moveTo_count_and_final_witness :
    (moveTo 0 0 10 20 (1 / 2) (1 / 100)).length = ⌈(1 / 2 : ℚ) / (1 / 100)⌉.toNat
    ∧ 1 ≤ (moveTo 0 0 10 20 (1 / 2) (1 / 100)).length
    ∧ (moveTo 0 0 10 20 (1 / 2) (1 / 100)).getLast? = some (10, 20) :=
  moveTo_count_and_final 0 0 10 20 (1 / 2) (1 / 100) (by norm_num) (by norm_num)

/-- The speed stored by the `Navigator` constructor (Navigator.ts 35):
`speedMph > 0 ? speedMph : 1`. -/
def navSpeed (speedMph : ℚ) : ℚ := if speedMph > 0 then speedMph else 1

/-- The per-step pause (Navigator.ts 92-93):
`(actualStepMiles / speedMph) * 3600 * 1000` milliseconds. -/
def stepDurationMs (actualStepMiles speedMph : ℚ) : ℚ :=
  actualStepMiles / speedMph * 3600 * 1000

/-- The delay actually awaited (Navigator.ts 103):
`stepDurationMs > 0 ? stepDurationMs : 0`. -/
def stepDelay (d : ℚ) : ℚ := if d > 0 then d else 0

/-- C10: a zero or negative constructor speed is silently replaced by
1 mph; the stored speed is always strictly positive, so every step
duration computed from a non-negative step distance is non-negative
(and finite — it is an exact rational), and the awaited delay is never
negative. -/
theorem navigator_speed_normalized (s : ℚ) :
    (s ≤ 0 → navSpeed s = 1)
    ∧ 0 < navSpeed s
    ∧ (∀ m : ℚ, 0 ≤ m → 0 ≤ stepDurationMs m (navSpeed s))
    ∧ (∀ d : ℚ, 0 ≤ stepDelay d) := by
  have hpos : 0 < navSpeed s := by
    rw [navSpeed]
    split
    · assumption
    · norm_num
  refine ⟨?_, hpos, ?_, ?_⟩
  · intro hle
    rw [navSpeed, if_neg (not_lt.mpr hle)]
  · intro m hm
    have := div_nonneg hm (le_of_lt hpos)
    unfold stepDurationMs
    positivity
  · intro d
    rw [stepDelay]
    split
    · linarith
    · exact le_refl 0

/-- Witness for C10: a zero constructor speed becomes 1 mph and yields
non-negative step durations and delays. -/
theorem navigator_speed_normalized_witness :
    navSpeed 0 = 1 ∧ 0 < navSpeed 0 ∧ 0 ≤ stepDurationMs 2 (navSpeed 0)
    ∧ 0 ≤ stepDelay (-5) := by
  obtain ⟨h1, h2, h3, h4⟩ := navigator_speed_normalized 0
  exact ⟨h1 le_rfl, h2, h3 2 (by norm_num), h4 (-5)⟩
